import Mathlib

/-! Context-based-restriction client (`src/cbr/cbr.go`)

A shallow embedding of the Go package `cbr`: the policy client that creates
zones and rules at a remote context-based-restrictions service and deletes
them by ID or by naming pattern.

* Go strings are Lean `String`s, sequences of Unicode characters: on UTF-8
  text the byte-wise substring search of `strings.Contains` finds exactly the
  character-wise occurrences, and `len` is the UTF-8 byte length.
* The remote service is an arbitrary state machine (`Service σ`): every SDK
  call takes the service state and returns a result together with the next
  state.  Each call the client issues is appended to the `trace` of the
  `World`, with the error it returned, so that "which calls were issued, with
  which request, in which order" is observable.
* A Go `error` result is `Option GoError` (`none` is `nil`).
* Writes to standard output and to the logger are not modelled.
-/

set_option autoImplicit false

namespace cbr

/-! ## Go runtime and standard library -/

/-- A non-nil Go `error` value, identified by its message. -/
abbrev GoError := String

deriving instance DecidableEq for Except

/-- The scan behind `strings.Contains` on character lists: `substr` occurs in
`s` when it is a prefix of `s` or occurs in the tail of `s`. -/
def stringsContainsChars : List Char → List Char → Bool
  | [], substr => substr.isPrefixOf []
  | c :: t, substr => substr.isPrefixOf (c :: t) || stringsContainsChars t substr

/-- Go `strings.Contains(s, substr)`: whether `substr` occurs within `s`. -/
def stringsContains (s substr : String) : Bool :=
  stringsContainsChars s.data substr.data

/-- Go `len(s)` for a string: its length in bytes. -/
def len (s : String) : Nat := s.utf8ByteSize

/-- Go `os.Getenv(key)` over the process environment: the value of the first
binding of `key`, and the empty string when the variable is unset. -/
def osGetenv (environ : List (String × String)) (key : String) : String :=
  match environ.lookup key with
  | some v => v
  | none => ""

/-! ## Package constants (`cbr.go` lines 15-20) -/

def kubernetes_service : String := "containers-kubernetes"
def is_service : String := "is"
def cos_service : String := "cloud-object-storage"
def keyProtect_service : String := "kms"

/-! ## Data model -/

/-- Go `CBR`: the membership specification of a zone. -/
structure CBR where
  VPC : List String
  Address : List String
  ServiceRef : List String
  deriving DecidableEq, Repr

/-- Go `StorageCBR`, without the SDK handle and the logger: the client scope. -/
structure StorageCBR where
  accountID : String
  resourceGroupID : String
  clusterID : String
  pattern : String
  deriving DecidableEq, Repr

/-- SDK `ServiceRefValue`, with the two fields `CreateCBRZone` sets. -/
structure ServiceRefValue where
  AccountID : String
  ServiceName : String
  deriving DecidableEq, Repr

/-- SDK `AddressIntf`: one constructor per concrete address model that
`cbr.go` builds, each with the fields it sets (`Typ` is the Go field `Type`). -/
inductive AddressIntf where
  | AddressIPAddress (Typ Value : String)
  | AddressIPAddressRange (Typ Value : String)
  | AddressSubnet (Typ Value : String)
  | AddressVPC (Typ Value : String)
  | AddressServiceRef (Typ : String) (Ref : ServiceRefValue)
  deriving DecidableEq, Repr

/-- The `Type` field of an address entry. -/
def AddressIntf.Typ : AddressIntf → String
  | .AddressIPAddress t _ => t
  | .AddressIPAddressRange t _ => t
  | .AddressSubnet t _ => t
  | .AddressVPC t _ => t
  | .AddressServiceRef t _ => t

/-- The `Value` field of an address entry (a service reference has none). -/
def AddressIntf.Value : AddressIntf → Option String
  | .AddressIPAddress _ v => some v
  | .AddressIPAddressRange _ v => some v
  | .AddressSubnet _ v => some v
  | .AddressVPC _ v => some v
  | .AddressServiceRef _ _ => none

/-- SDK `RuleContextAttribute`. -/
structure RuleContextAttribute where
  Name : String
  Value : String
  deriving DecidableEq, Repr

/-- SDK `RuleContext`. -/
structure RuleContext where
  Attributes : List RuleContextAttribute
  deriving DecidableEq, Repr

/-- SDK `ResourceAttribute`; `Operator` is `none` when the Go literal leaves
the pointer field unset. -/
structure ResourceAttribute where
  Name : String
  Value : String
  Operator : Option String
  deriving DecidableEq, Repr

/-- SDK `Resource`, with the field `CreateCBRRule` sets. -/
structure Resource where
  Attributes : List ResourceAttribute
  deriving DecidableEq, Repr

/-- SDK `NewRuleOperationsAPITypesItem`. -/
structure NewRuleOperationsAPITypesItem where
  APITypeID : String
  deriving DecidableEq, Repr

/-- SDK `NewRuleOperations`. -/
structure NewRuleOperations where
  APITypes : List NewRuleOperationsAPITypesItem
  deriving DecidableEq, Repr

/-- SDK `CreateZoneOptions`, with the four fields `CreateCBRZone` sets. -/
structure CreateZoneOptions where
  Name : String
  AccountID : String
  Description : String
  Addresses : List AddressIntf
  deriving DecidableEq, Repr

/-- SDK `CreateRuleOptions`; `Operations` is `none` unless `SetOperations`
was called. -/
structure CreateRuleOptions where
  Description : String
  Contexts : List RuleContext
  Resources : List Resource
  EnforcementMode : String
  Operations : Option NewRuleOperations
  deriving DecidableEq, Repr

/-- Modelled from the spec: the SDK constant
`CreateRuleOptionsEnforcementModeEnabledConst`, whose declaration is not part
of the sources; the enforcement mode is "fixed to enabled". -/
def CreateRuleOptionsEnforcementModeEnabledConst : String := "enabled"

/-- Modelled from the spec: the SDK type `Zone` returned by `CreateZone`
(`Zone{id, name, ...}`), whose declaration is not part of the sources. -/
structure Zone where
  ID : String
  Name : String
  deriving DecidableEq, Repr

/-- Modelled from the spec: the SDK type `Rule` returned by `CreateRule`
(`Rule{id, ...}`), whose declaration is not part of the sources. -/
structure Rule where
  ID : String
  Description : String
  deriving DecidableEq, Repr

/-- Modelled from the spec: one element of the zone listing; the client reads
its `ID` and `Name`. -/
structure ZoneSummary where
  ID : String
  Name : String
  deriving DecidableEq, Repr

/-- Modelled from the spec: one element of the rule listing; the client reads
its `ID` and `Description`. -/
structure RuleSummary where
  ID : String
  Description : String
  deriving DecidableEq, Repr

/-- Modelled from the spec: the result of `ListZones`, `{count, zones[]}`. -/
structure ZoneList where
  Count : Int
  Zones : List ZoneSummary
  deriving DecidableEq, Repr

/-- Modelled from the spec: the result of `ListRules`, `{count, rules[]}`. -/
structure RuleList where
  Count : Int
  Rules : List RuleSummary
  deriving DecidableEq, Repr

/-- SDK `core.DetailedResponse`, with the field the client reads. -/
structure DetailedResponse where
  StatusCode : Int
  deriving DecidableEq, Repr

/-! ## The remote service and the observable world -/

/-- The remote policy service as a state machine over `σ`: each operation maps
a request and the current service state to a result (`.error` when the SDK call
returns a non-nil `error`) and the next state. -/
structure Service (σ : Type) where
  CreateZone : CreateZoneOptions → σ → Except GoError Zone × σ
  CreateRule : CreateRuleOptions → σ → Except GoError Rule × σ
  DeleteZone : String → σ → Except GoError DetailedResponse × σ
  DeleteRule : String → σ → Except GoError DetailedResponse × σ
  ListZones : String → σ → Except GoError ZoneList × σ
  ListRules : String → σ → Except GoError RuleList × σ

/-- A remote call as the client issues it. -/
inductive Call where
  | CreateZone (createZoneOptions : CreateZoneOptions)
  | CreateRule (createRuleOptions : CreateRuleOptions)
  | DeleteZone (zoneID : String)
  | DeleteRule (ruleID : String)
  | ListZones (accountID : String)
  | ListRules (accountID : String)
  deriving DecidableEq, Repr

/-- One issued call together with the error it returned (`none` for `nil`). -/
structure Event where
  call : Call
  err : Option GoError
  deriving DecidableEq, Repr

/-- Everything outside the client: the state of the remote service, the
process environment, and the calls issued so far, oldest first. -/
structure World (σ : Type) where
  remote : σ
  environ : List (String × String)
  trace : List Event
  deriving DecidableEq

/-- The `error` half of an SDK call result. -/
def errOf {α : Type} : Except GoError α → Option GoError
  | .error e => some e
  | .ok _ => none

/-- Issue one remote call: run it on the service state and record it. -/
def invoke {σ α : Type} (c : Call) (f : σ → Except GoError α × σ) (w : World σ) :
    Except GoError α × World σ :=
  let r := f w.remote
  (r.1, { w with remote := r.2, trace := w.trace ++ [⟨c, errOf r.1⟩] })

/-! ## The client (`cbr.go`) -/

/-- Go `getAddressIntf` (lines 156-182). -/
def getAddressIntf (address : String) : AddressIntf :=
  if stringsContains address "-" then
    .AddressIPAddressRange "ipRange" address
  else if stringsContains address "/" then
    .AddressSubnet "subnet" address
  else
    .AddressIPAddress "ipAddress" address

/-- The membership list `CreateCBRZone` assembles (lines 101-134): the
classified addresses, then the service references, then the VPCs, each loop
appending to `addressIntf`. -/
def CreateCBRZone.addressIntf (storageCBR : StorageCBR) (cbrInput : CBR) : List AddressIntf :=
  let addressIntf : List AddressIntf := []
  let addressIntf := cbrInput.Address.foldl
    (fun acc address => acc ++ [getAddressIntf address]) addressIntf
  let addressIntf := cbrInput.ServiceRef.foldl
    (fun acc serviceRef =>
      acc ++ [AddressIntf.AddressServiceRef "serviceRef" ⟨storageCBR.accountID, serviceRef⟩])
    addressIntf
  let addressIntf := cbrInput.VPC.foldl
    (fun acc VPC => acc ++ [AddressIntf.AddressVPC "vpc" VPC]) addressIntf
  addressIntf

/-- Go `StorageCBR.CreateCBRZone` (lines 96-154); the result is the Go pair
`(zoneID, err)`. -/
def CreateCBRZone {σ : Type} (svc : Service σ) (storageCBR : StorageCBR)
    (name : String) (cbrInput : CBR) (w : World σ) : (String × Option GoError) × World σ :=
  let name := name ++ "-" ++ storageCBR.pattern
  let addressIntf := CreateCBRZone.addressIntf storageCBR cbrInput
  let createZoneOptions : CreateZoneOptions :=
    { Name := name
      AccountID := storageCBR.accountID
      Description := "Zone-" ++ name
      Addresses := addressIntf }
  match invoke (.CreateZone createZoneOptions) (svc.CreateZone createZoneOptions) w with
  | (.error err, w) => (("", some err), w)
  | (.ok zone, w) => ((zone.ID, none), w)

/-- Go `StorageCBR.SetApiTypes` (lines 382-395): `none` is the Go `nil`. -/
def SetApiTypes (environ : List (String × String)) : Option NewRuleOperations :=
  let api_type := osGetenv environ "APITYPE"
  if api_type = "management" then
    some ⟨[⟨"crn:v1:bluemix:public:containers-kubernetes::::api-type:management"⟩]⟩
  else if api_type = "cluster" then
    some ⟨[⟨"crn:v1:bluemix:public:containers-kubernetes::::api-type:cluster"⟩]⟩
  else
    none

/-- Go `StorageCBR.CreateCBRRule` (lines 212-268); the result is the Go pair
`(ruleID, err)`. -/
def CreateCBRRule {σ : Type} (svc : Service σ) (storageCBR : StorageCBR)
    (zoneID serviceName : String) (w : World σ) : (String × Option GoError) × World σ :=
  let ruleContextAttributeModel : RuleContextAttribute := ⟨"networkZoneId", zoneID⟩
  let ruleContextModel : RuleContext := ⟨[ruleContextAttributeModel]⟩
  let resourceModel : Resource :=
    ⟨[⟨"accountId", storageCBR.accountID, none⟩, ⟨"serviceName", serviceName, none⟩]⟩
  let resourceModel : Resource :=
    if storageCBR.clusterID ≠ "" then
      ⟨resourceModel.Attributes ++
        [⟨"serviceInstance", storageCBR.clusterID, some "stringEquals"⟩]⟩
    else
      ⟨resourceModel.Attributes ++ [⟨"resourceGroupId", storageCBR.resourceGroupID, none⟩]⟩
  let createRuleOptions : CreateRuleOptions :=
    { Description := serviceName ++ "-rule-" ++ storageCBR.pattern
      Contexts := [ruleContextModel]
      Resources := [resourceModel]
      EnforcementMode := CreateRuleOptionsEnforcementModeEnabledConst
      Operations := none }
  let createRuleOptions : CreateRuleOptions :=
    if serviceName = kubernetes_service then
      match SetApiTypes w.environ with
      | some operations => { createRuleOptions with Operations := some operations }
      | none => createRuleOptions
    else createRuleOptions
  match invoke (.CreateRule createRuleOptions) (svc.CreateRule createRuleOptions) w with
  | (.error err, w) => (("", some err), w)
  | (.ok rule, w) => ((rule.ID, none), w)

/-- Go `CreateCBRRuleForContainerK8sService` (lines 184-189). -/
def CreateCBRRuleForContainerK8sService {σ : Type} (svc : Service σ) (storageCBR : StorageCBR)
    (zoneID : String) (w : World σ) : (String × Option GoError) × World σ :=
  CreateCBRRule svc storageCBR zoneID kubernetes_service w

/-- Go `CreateCBRRuleForISService` (lines 191-196). -/
def CreateCBRRuleForISService {σ : Type} (svc : Service σ) (storageCBR : StorageCBR)
    (zoneID : String) (w : World σ) : (String × Option GoError) × World σ :=
  CreateCBRRule svc storageCBR zoneID is_service w

/-- Go `CreateCBRRuleForKMSService` (lines 198-203). -/
def CreateCBRRuleForKMSService {σ : Type} (svc : Service σ) (storageCBR : StorageCBR)
    (zoneID : String) (w : World σ) : (String × Option GoError) × World σ :=
  CreateCBRRule svc storageCBR zoneID keyProtect_service w

/-- Go `CreateCBRRuleForCOSService` (lines 205-210). -/
def CreateCBRRuleForCOSService {σ : Type} (svc : Service σ) (storageCBR : StorageCBR)
    (zoneID : String) (w : World σ) : (String × Option GoError) × World σ :=
  CreateCBRRule svc storageCBR zoneID cos_service w

/-- The second block of `DeleteCBRRuleZone` (lines 293-313), entered with the
function-level variable `err`: the `response, err :=` of the block declares
its own `err`, returned at once when non-nil; the final `return err` returns
the function-level one. -/
def DeleteCBRRuleZone.zonePart {σ : Type} (svc : Service σ) (zoneID : String)
    (err : Option GoError) (w : World σ) : Option GoError × World σ :=
  if len zoneID ≠ 0 then
    match invoke (.DeleteZone zoneID) (svc.DeleteZone zoneID) w with
    | (.error err1, w) => (some err1, w)
    | (.ok _response, w) => (err, w)
  else
    (err, w)

/-- Go `StorageCBR.DeleteCBRRuleZone` (lines 270-314).  A failed `DeleteRule`
returns from inside the first block (line 282). -/
def DeleteCBRRuleZone {σ : Type} (svc : Service σ) (_storageCBR : StorageCBR)
    (ruleID zoneID : String) (w : World σ) : Option GoError × World σ :=
  let err : Option GoError := none
  if len ruleID ≠ 0 then
    match invoke (.DeleteRule ruleID) (svc.DeleteRule ruleID) w with
    | (.error err1, w) => (some err1, w)
    | (.ok _response, w) => DeleteCBRRuleZone.zonePart svc zoneID err w
  else
    DeleteCBRRuleZone.zonePart svc zoneID err w

/-- The `for _, zone := range listzone.Zones` loop of
`DeleteCBRZoneWithPattern` (lines 332-343).  The `_, err :=` on line 336
declares an `err` local to the `if` block, so the loop state is `zoneIds` and
the world only. -/
def DeleteCBRZoneWithPattern.loop {σ : Type} (svc : Service σ) (zoneDescription : String) :
    List ZoneSummary → List String → World σ → List String × World σ
  | [], zoneIds, w => (zoneIds, w)
  | zone :: rest, zoneIds, w =>
    if stringsContains zone.Name zoneDescription then
      match invoke (.DeleteZone zone.ID) (svc.DeleteZone zone.ID) w with
      | (.error _err, w) => DeleteCBRZoneWithPattern.loop svc zoneDescription rest zoneIds w
      | (.ok _, w) =>
        DeleteCBRZoneWithPattern.loop svc zoneDescription rest (zoneIds ++ [zone.ID]) w
    else
      DeleteCBRZoneWithPattern.loop svc zoneDescription rest zoneIds w

/-- Go `StorageCBR.DeleteCBRZoneWithPattern` (lines 317-346); the result is
the Go pair `(zoneIds, err)`, where `err` is the variable assigned by the
listing call. -/
def DeleteCBRZoneWithPattern {σ : Type} (svc : Service σ) (storageCBR : StorageCBR)
    (zoneDescription : String) (w : World σ) : (List String × Option GoError) × World σ :=
  let zoneDescription := if zoneDescription = "" then storageCBR.pattern else zoneDescription
  let zoneIds : List String := []
  match invoke (.ListZones storageCBR.accountID) (svc.ListZones storageCBR.accountID) w with
  | (.error err, w) => (([], some err), w)
  | (.ok listzone, w) =>
    let err : Option GoError := none
    let r := DeleteCBRZoneWithPattern.loop svc zoneDescription listzone.Zones zoneIds w
    ((r.1, err), r.2)

/-- The `for _, rule := range listrules.Rules` loop of
`DeleteCBRRuleWithPattern` (lines 364-376).  The `_, err =` on line 368
assigns the function-level `err`, which is part of the loop state. -/
def DeleteCBRRuleWithPattern.loop {σ : Type} (svc : Service σ) (ruleDescription : String) :
    List RuleSummary → List String → Option GoError → World σ →
      (List String × Option GoError) × World σ
  | [], ruleIds, err, w => ((ruleIds, err), w)
  | rule :: rest, ruleIds, err, w =>
    if stringsContains rule.Description ruleDescription then
      match invoke (.DeleteRule rule.ID) (svc.DeleteRule rule.ID) w with
      | (.error err1, w) =>
        DeleteCBRRuleWithPattern.loop svc ruleDescription rest ruleIds (some err1) w
      | (.ok _, w) =>
        DeleteCBRRuleWithPattern.loop svc ruleDescription rest (ruleIds ++ [rule.ID]) none w
    else
      DeleteCBRRuleWithPattern.loop svc ruleDescription rest ruleIds err w

/-- Go `StorageCBR.DeleteCBRRuleWithPattern` (lines 349-379); the result is
the Go pair `(ruleIds, err)`. -/
def DeleteCBRRuleWithPattern {σ : Type} (svc : Service σ) (storageCBR : StorageCBR)
    (ruleDescription : String) (w : World σ) : (List String × Option GoError) × World σ :=
  let ruleDescription := if ruleDescription = "" then storageCBR.pattern else ruleDescription
  let ruleIds : List String := []
  match invoke (.ListRules storageCBR.accountID) (svc.ListRules storageCBR.accountID) w with
  | (.error err, w) => (([], some err), w)
  | (.ok listrules, w) =>
    DeleteCBRRuleWithPattern.loop svc ruleDescription listrules.Rules ruleIds none w

/-! ## Reading a trace -/

/-- The error of the last event of `evs`, or `err` when `evs` is empty: what a
variable holds that starts as `err` and is assigned the error of every call. -/
def lastErr (err : Option GoError) : List Event → Option GoError
  | [] => err
  | e :: evs => lastErr e.err evs

/-- The service's side of a run of delete requests: `op` (the service's
`DeleteZone` or `DeleteRule`) is applied to the IDs one after the other, each
on the state the previous one left; the result is one event per request, with
the error `op` returned for it, and the state the service ends in. -/
def serve {σ : Type} (op : String → σ → Except GoError DetailedResponse × σ)
    (mk : String → Call) : List String → σ → List Event × σ
  | [], s => ([], s)
  | id :: rest, s =>
    ((⟨mk id, errOf (op id s).1⟩ : Event) :: (serve op mk rest (op id s).2).1,
     (serve op mk rest (op id s).2).2)

/-! ## A concrete remote service for worked runs -/

/-- An in-memory service: listings return the given zones and rules, a delete
call fails for the IDs in `failing` and otherwise answers with `status`, and
the state counts the calls served. -/
def sampleService (zones : List ZoneSummary) (rules : List RuleSummary)
    (failing : List String) (status : Int) : Service Nat where
  CreateZone := fun o n => (.ok ⟨"zone-id", o.Name⟩, n + 1)
  CreateRule := fun o n => (.ok ⟨"rule-id", o.Description⟩, n + 1)
  DeleteZone := fun zoneID n =>
    (if zoneID ∈ failing then .error ("cannot delete " ++ zoneID) else .ok ⟨status⟩, n + 1)
  DeleteRule := fun ruleID n =>
    (if ruleID ∈ failing then .error ("cannot delete " ++ ruleID) else .ok ⟨status⟩, n + 1)
  ListZones := fun _ n => (.ok ⟨zones.length, zones⟩, n + 1)
  ListRules := fun _ n => (.ok ⟨rules.length, rules⟩, n + 1)

/-- A client scoped to a cluster, with naming pattern "mypattern". -/
def sampleClient : StorageCBR :=
  { accountID := "acct", resourceGroupID := "rg", clusterID := "cluster-1",
    pattern := "mypattern" }

/-- A world in which nothing has happened yet. -/
def freshWorld : World Nat :=
  { remote := 0, environ := [], trace := [] }

/-! ## Facts about the modelled Go primitives -/

/-- Adequacy of the scan: it finds `substr` exactly when `substr` is a
contiguous sublist of `s`. -/
theorem stringsContainsChars_iff (s substr : List Char) :
    stringsContainsChars s substr = true ↔ substr <:+: s := by
  induction s with
  | nil =>
    simp [stringsContainsChars, List.isPrefixOf_iff_prefix]
  | cons c t ih =>
    simp only [stringsContainsChars, Bool.or_eq_true, ih, List.isPrefixOf_iff_prefix,
      List.infix_cons_iff]

/-- Every string contains the empty string. -/
theorem stringsContains_empty (s : String) : stringsContains s "" = true := by
  unfold stringsContains
  rw [stringsContainsChars_iff]
  exact List.nil_infix

/-- Containing a one-character string is containing that character. -/
theorem stringsContains_singleton (s : String) (c : Char) :
    stringsContains s (String.singleton c) = true ↔ c ∈ s.data := by
  unfold stringsContains
  rw [stringsContainsChars_iff]
  show [c] <:+: s.data ↔ c ∈ s.data
  constructor
  · intro h
    exact h.subset (List.mem_singleton_self c)
  · intro h
    obtain ⟨l1, l2, h2⟩ := List.append_of_mem h
    exact ⟨l1, l2, by simp [h2]⟩

/-- The byte length of a string is zero exactly for the empty string. -/
theorem len_eq_zero_iff (s : String) : len s = 0 ↔ s = "" := by
  obtain ⟨l⟩ := s
  cases l with
  | nil => simp [len, String.utf8ByteSize, String.utf8ByteSize.go]
  | cons c t =>
    have hc := Char.utf8Size_pos c
    have hne : (String.mk (c :: t)) ≠ "" := by
      intro h
      have := congrArg String.data h
      simp at this
    simp only [len, String.utf8ByteSize, String.utf8ByteSize.go, hne, iff_false]
    omega

/-- Appending one element per loop iteration is appending the mapped list. -/
theorem foldl_append_singleton {α β : Type} (f : α → β) (xs : List α) (acc : List β) :
    xs.foldl (fun acc x => acc ++ [f x]) acc = acc ++ xs.map f := by
  induction xs generalizing acc with
  | nil => simp
  | cons x rest ih => simp [ih]

/-- A remote call appends exactly one event, carrying the call and its error. -/
theorem invoke_trace {σ α : Type} (c : Call) (f : σ → Except GoError α × σ) (w : World σ) :
    (invoke c f w).2.trace = w.trace ++ [⟨c, errOf (f w.remote).1⟩] := rfl

/-- The result of a remote call is the result of the service operation. -/
theorem invoke_result {σ α : Type} (c : Call) (f : σ → Except GoError α × σ) (w : World σ) :
    (invoke c f w).1 = (f w.remote).1 := rfl

/-- Containing the string "-" is containing the dash character. -/
theorem stringsContains_dash (s : String) : stringsContains s "-" = true ↔ '-' ∈ s.data :=
  stringsContains_singleton s '-'

/-- Containing the string "/" is containing the slash character. -/
theorem stringsContains_slash (s : String) : stringsContains s "/" = true ↔ '/' ∈ s.data :=
  stringsContains_singleton s '/'

/-! ## Address classification -/

/-- C1: for every address string `a`, `getAddressIntf a` is an entry whose
value is `a` unchanged and whose type is "ipRange" if `a` contains a dash,
otherwise "subnet" if `a` contains a slash, otherwise "ipAddress" (the entry
being of the range, subnet and single-address model respectively); a string
containing both a dash and a slash is a range; and the three sample
addresses classify as range, subnet and single address. -/
theorem getAddressIntf_classifies :
    (∀ a : String,
      (getAddressIntf a).Value = some a ∧
      (getAddressIntf a).Typ =
        (if '-' ∈ a.data then "ipRange" else if '/' ∈ a.data then "subnet" else "ipAddress") ∧
      getAddressIntf a =
        (if '-' ∈ a.data then AddressIntf.AddressIPAddressRange "ipRange" a
         else if '/' ∈ a.data then AddressIntf.AddressSubnet "subnet" a
         else AddressIntf.AddressIPAddress "ipAddress" a)) ∧
    (∀ a : String, '-' ∈ a.data → '/' ∈ a.data →
      getAddressIntf a = AddressIntf.AddressIPAddressRange "ipRange" a) ∧
    getAddressIntf "10.0.0.1-10.0.0.5" =
      AddressIntf.AddressIPAddressRange "ipRange" "10.0.0.1-10.0.0.5" ∧
    getAddressIntf "10.0.0.0/24" = AddressIntf.AddressSubnet "subnet" "10.0.0.0/24" ∧
    getAddressIntf "10.0.0.1" = AddressIntf.AddressIPAddress "ipAddress" "10.0.0.1" ∧
    getAddressIntf "10.0.0.1-10.0.0.5/24" =
      AddressIntf.AddressIPAddressRange "ipRange" "10.0.0.1-10.0.0.5/24" := by
  have key : ∀ a : String, getAddressIntf a =
      (if '-' ∈ a.data then AddressIntf.AddressIPAddressRange "ipRange" a
       else if '/' ∈ a.data then AddressIntf.AddressSubnet "subnet" a
       else AddressIntf.AddressIPAddress "ipAddress" a) := by
    intro a
    unfold getAddressIntf
    by_cases hd : '-' ∈ a.data
    · rw [if_pos ((stringsContains_dash a).2 hd), if_pos hd]
    · have hd1 : ¬ stringsContains a "-" = true := fun h => hd ((stringsContains_dash a).1 h)
      rw [if_neg hd1, if_neg hd]
      by_cases hs : '/' ∈ a.data
      · rw [if_pos ((stringsContains_slash a).2 hs), if_pos hs]
      · have hs1 : ¬ stringsContains a "/" = true :=
          fun h => hs ((stringsContains_slash a).1 h)
        rw [if_neg hs1, if_neg hs]
  refine ⟨?_, ?_, by decide, by decide, by decide, by decide⟩
  · intro a
    refine ⟨?_, ?_, key a⟩
    · rw [key a]
      split_ifs <;> rfl
    · rw [key a]
      split_ifs <;> rfl
  · intro a hd _
    rw [key a, if_pos hd]

/-! ## Rule and zone creation -/

/-- The request `CreateCBRRule` sends: it issues exactly one remote call, a
`CreateRule` whose options are the ones below. -/
theorem CreateCBRRule_request {σ : Type} (svc : Service σ) (storageCBR : StorageCBR)
    (zoneID serviceName : String) (w : World σ) :
    ∃ err : Option GoError,
      (CreateCBRRule svc storageCBR zoneID serviceName w).2.trace =
        w.trace ++ [⟨Call.CreateRule
          { Description := serviceName ++ "-rule-" ++ storageCBR.pattern
            Contexts := [⟨[⟨"networkZoneId", zoneID⟩]⟩]
            Resources := [⟨[⟨"accountId", storageCBR.accountID, none⟩,
              ⟨"serviceName", serviceName, none⟩,
              if storageCBR.clusterID ≠ "" then
                ⟨"serviceInstance", storageCBR.clusterID, some "stringEquals"⟩
              else ⟨"resourceGroupId", storageCBR.resourceGroupID, none⟩]⟩]
            EnforcementMode := "enabled"
            Operations :=
              if serviceName = kubernetes_service then SetApiTypes w.environ else none },
          err⟩] := by
  unfold CreateCBRRule
  simp only []
  split
  · next err1 w1 h =>
      refine ⟨errOf (.error err1 : Except GoError Rule), ?_⟩
      have ht := congrArg (fun p => p.2.trace) h
      simp only [invoke_trace] at ht
      have hr := congrArg (fun p => p.1) h
      simp only [invoke_result] at hr
      rw [← ht, hr]
      by_cases hc : storageCBR.clusterID = "" <;> by_cases hk : serviceName = kubernetes_service
        <;> simp [hc, hk, CreateRuleOptionsEnforcementModeEnabledConst]
        <;> cases SetApiTypes w.environ <;> rfl
  · next rule w1 h =>
      refine ⟨none, ?_⟩
      have ht := congrArg (fun p => p.2.trace) h
      simp only [invoke_trace] at ht
      have hr := congrArg (fun p => p.1) h
      simp only [invoke_result] at hr
      rw [← ht, hr]
      by_cases hc : storageCBR.clusterID = "" <;> by_cases hk : serviceName = kubernetes_service
        <;> simp [hc, hk, CreateRuleOptionsEnforcementModeEnabledConst, errOf]
        <;> cases SetApiTypes w.environ <;> rfl

/-- The membership list of a created zone: one classified entry per address,
then one service reference per name (paired with the account ID), then one
entry per VPC. -/
theorem CreateCBRZone_addressIntf_eq (storageCBR : StorageCBR) (cbrInput : CBR) :
    CreateCBRZone.addressIntf storageCBR cbrInput =
      cbrInput.Address.map getAddressIntf ++
      cbrInput.ServiceRef.map
        (fun serviceRef =>
          AddressIntf.AddressServiceRef "serviceRef" ⟨storageCBR.accountID, serviceRef⟩) ++
      cbrInput.VPC.map (fun VPC => AddressIntf.AddressVPC "vpc" VPC) := by
  unfold CreateCBRZone.addressIntf
  simp only [foldl_append_singleton, List.nil_append]

/-- C2: the resource attribute list of the create-rule request built by
`CreateCBRRule` contains exactly one attribute named "serviceInstance" or
"resourceGroupId": it is "serviceInstance" (value the cluster ID, operator
"stringEquals") when the client's cluster ID is non-empty and
"resourceGroupId" (value the resource-group ID) otherwise; an attribute named
"serviceInstance" is present iff the cluster ID is non-empty and one named
"resourceGroupId" iff it is empty, whatever the service name, the zone ID and
the resource-group ID. -/
theorem CreateCBRRule_scope_qualifier {σ : Type} (svc : Service σ) (storageCBR : StorageCBR)
    (zoneID serviceName : String) (w : World σ) :
    ∃ (createRuleOptions : CreateRuleOptions) (resourceModel : Resource)
      (err : Option GoError),
      (CreateCBRRule svc storageCBR zoneID serviceName w).2.trace =
        w.trace ++ [⟨Call.CreateRule createRuleOptions, err⟩] ∧
      createRuleOptions.Resources = [resourceModel] ∧
      resourceModel.Attributes.filter
          (fun a => a.Name = "serviceInstance" || a.Name = "resourceGroupId") =
        [if storageCBR.clusterID ≠ "" then
           ⟨"serviceInstance", storageCBR.clusterID, some "stringEquals"⟩
         else ⟨"resourceGroupId", storageCBR.resourceGroupID, none⟩] ∧
      ((∃ a ∈ resourceModel.Attributes, a.Name = "serviceInstance") ↔
        storageCBR.clusterID ≠ "") ∧
      ((∃ a ∈ resourceModel.Attributes, a.Name = "resourceGroupId") ↔
        storageCBR.clusterID = "") := by
  obtain ⟨err, h⟩ := CreateCBRRule_request svc storageCBR zoneID serviceName w
  refine ⟨_, _, err, h, rfl, ?_, ?_, ?_⟩ <;>
    by_cases hc : storageCBR.clusterID = "" <;> simp [hc]

/-- C3: the create-rule request built by `CreateCBRRule` carries an
operation-restriction set if and only if the service name is
"containers-kubernetes" and the value of the `APITYPE` environment variable
(empty when unset) is exactly "management" or exactly "cluster". -/
theorem CreateCBRRule_operations_iff {σ : Type} (svc : Service σ) (storageCBR : StorageCBR)
    (zoneID serviceName : String) (w : World σ) :
    ∃ (createRuleOptions : CreateRuleOptions) (err : Option GoError),
      (CreateCBRRule svc storageCBR zoneID serviceName w).2.trace =
        w.trace ++ [⟨Call.CreateRule createRuleOptions, err⟩] ∧
      (createRuleOptions.Operations ≠ none ↔
        serviceName = "containers-kubernetes" ∧
          (osGetenv w.environ "APITYPE" = "management" ∨
            osGetenv w.environ "APITYPE" = "cluster")) := by
  obtain ⟨err, h⟩ := CreateCBRRule_request svc storageCBR zoneID serviceName w
  refine ⟨_, err, h, ?_⟩
  by_cases hk : serviceName = kubernetes_service
  · have hk1 : serviceName = "containers-kubernetes" := hk
    simp only [hk, if_true]
    unfold SetApiTypes
    by_cases hm : osGetenv w.environ "APITYPE" = "management"
    · simp [hm, kubernetes_service]
    · by_cases hcl : osGetenv w.environ "APITYPE" = "cluster"
      · simp [hcl, kubernetes_service]
      · simp [hm, hcl]
  · have hk1 : ¬ serviceName = "containers-kubernetes" := hk
    simp [hk, hk1]

/-- The ID test of `DeleteCBRRuleZone`: `len id != 0` is `id` being non-empty. -/
theorem len_ne_zero_iff (s : String) : len s ≠ 0 ↔ s ≠ "" :=
  not_congr (len_eq_zero_iff s)

/-- The zone block of `DeleteCBRRuleZone` on an empty zone ID does nothing. -/
theorem zonePart_empty {σ : Type} (svc : Service σ) (err : Option GoError) (w : World σ) :
    DeleteCBRRuleZone.zonePart svc "" err w = (err, w) := by
  unfold DeleteCBRRuleZone.zonePart
  rw [if_neg (by simp [len_eq_zero_iff])]

/-- The zone block of `DeleteCBRRuleZone` on a non-empty zone ID issues one
`DeleteZone` call and returns its error, or the incoming `err` when there is
none. -/
theorem zonePart_nonempty {σ : Type} (svc : Service σ) (zoneID : String)
    (err : Option GoError) (w : World σ) (hz : zoneID ≠ "") :
    (DeleteCBRRuleZone.zonePart svc zoneID err w).2.trace =
        w.trace ++ [⟨Call.DeleteZone zoneID, errOf (svc.DeleteZone zoneID w.remote).1⟩] ∧
    (DeleteCBRRuleZone.zonePart svc zoneID err w).1 =
      (match errOf (svc.DeleteZone zoneID w.remote).1 with
       | some e => some e
       | none => err) := by
  unfold DeleteCBRRuleZone.zonePart
  rw [if_pos ((len_ne_zero_iff zoneID).2 hz)]
  split
  · next err1 w1 h =>
      have ht := congrArg (fun p => p.2.trace) h
      have hr := congrArg (fun p => p.1) h
      simp only [invoke_trace, invoke_result] at ht hr
      simp only [← ht, hr, errOf, and_self]
  · next resp w1 h =>
      have ht := congrArg (fun p => p.2.trace) h
      have hr := congrArg (fun p => p.1) h
      simp only [invoke_trace, invoke_result] at ht hr
      simp only [← ht, hr, errOf, and_self]

/-- With an empty rule ID, `DeleteCBRRuleZone` is its zone block alone. -/
theorem DeleteCBRRuleZone_rule_empty {σ : Type} (svc : Service σ) (storageCBR : StorageCBR)
    (zoneID : String) (w : World σ) :
    DeleteCBRRuleZone svc storageCBR "" zoneID w =
      DeleteCBRRuleZone.zonePart svc zoneID none w := by
  unfold DeleteCBRRuleZone
  simp only []
  rw [if_neg (by simp [len_eq_zero_iff])]

/-- With a non-empty rule ID whose deletion succeeds, `DeleteCBRRuleZone`
continues with its zone block, whatever the status code of the response. -/
theorem DeleteCBRRuleZone_rule_ok {σ : Type} (svc : Service σ) (storageCBR : StorageCBR)
    (ruleID zoneID : String) (w : World σ) (hr : ruleID ≠ "") (resp : DetailedResponse)
    (s : σ) (h : svc.DeleteRule ruleID w.remote = (.ok resp, s)) :
    DeleteCBRRuleZone svc storageCBR ruleID zoneID w =
      DeleteCBRRuleZone.zonePart svc zoneID none
        { remote := s, environ := w.environ,
          trace := w.trace ++ [⟨Call.DeleteRule ruleID, none⟩] } := by
  unfold DeleteCBRRuleZone
  simp only []
  rw [if_pos ((len_ne_zero_iff ruleID).2 hr)]
  simp only [invoke, h, errOf]

/-- The zone block of `DeleteCBRRuleZone` on a non-empty zone ID leaves the
service in the state its `DeleteZone` call produced. -/
theorem zonePart_nonempty_remote {σ : Type} (svc : Service σ) (zoneID : String)
    (err : Option GoError) (w : World σ) (hz : zoneID ≠ "") :
    (DeleteCBRRuleZone.zonePart svc zoneID err w).2.remote =
      (svc.DeleteZone zoneID w.remote).2 := by
  unfold DeleteCBRRuleZone.zonePart
  rw [if_pos ((len_ne_zero_iff zoneID).2 hz)]
  split
  · next err1 w1 h =>
      have hs := congrArg (fun p => p.2.remote) h
      simp only [invoke] at hs
      exact hs.symm
  · next resp w1 h =>
      have hs := congrArg (fun p => p.2.remote) h
      simp only [invoke] at hs
      exact hs.symm

/-- C9: provided the remote service returns no error for the delete calls of
`DeleteCBRRuleZone ruleID zoneID` (its `DeleteRule` on `ruleID` in the current
service state when `ruleID` is non-empty, and its `DeleteZone` on `zoneID` in
the state that follows when `zoneID` is non-empty), the function returns no
error, whatever responses and status codes the service gives; the calls it
issues are a delete-rule call for `ruleID` exactly when `ruleID` is non-empty,
followed by a delete-zone call for `zoneID` exactly when `zoneID` is
non-empty; the service ends in the state those calls, and no others, bring
it to; and `DeleteCBRRuleZone "" ""` issues no call, leaves everything as it
is and returns no error. -/
theorem DeleteCBRRuleZone_without_call_errors {σ : Type} (svc : Service σ)
    (storageCBR : StorageCBR) (ruleID zoneID : String) (w : World σ)
    (hrule : ruleID ≠ "" → errOf (svc.DeleteRule ruleID w.remote).1 = none)
    (hzone : zoneID ≠ "" →
      errOf (svc.DeleteZone zoneID
        (if ruleID ≠ "" then (svc.DeleteRule ruleID w.remote).2 else w.remote)).1 = none) :
    (DeleteCBRRuleZone svc storageCBR ruleID zoneID w).1 = none ∧
    (DeleteCBRRuleZone svc storageCBR ruleID zoneID w).2.trace =
      w.trace ++
        ((if ruleID ≠ "" then [⟨Call.DeleteRule ruleID, none⟩] else []) ++
         (if zoneID ≠ "" then [⟨Call.DeleteZone zoneID, none⟩] else [])) ∧
    (DeleteCBRRuleZone svc storageCBR ruleID zoneID w).2.remote =
      (if zoneID ≠ "" then
        (svc.DeleteZone zoneID
          (if ruleID ≠ "" then (svc.DeleteRule ruleID w.remote).2 else w.remote)).2
       else if ruleID ≠ "" then (svc.DeleteRule ruleID w.remote).2 else w.remote) ∧
    DeleteCBRRuleZone svc storageCBR "" "" w = (none, w) := by
  have hlast : DeleteCBRRuleZone svc storageCBR "" "" w = (none, w) := by
    rw [DeleteCBRRuleZone_rule_empty, zonePart_empty]
  refine ⟨?_, ?_, ?_, hlast⟩
  all_goals
    by_cases hr : ruleID = ""
    · subst hr
      rw [DeleteCBRRuleZone_rule_empty]
      by_cases hz : zoneID = ""
      · subst hz
        simp [zonePart_empty]
      · obtain ⟨ht, hres⟩ := zonePart_nonempty svc zoneID none w hz
        have hs := zonePart_nonempty_remote svc zoneID none w hz
        have he := hzone hz
        simp only [ne_eq, not_true_eq_false, if_false] at he
        simp [ht, hres, hs, he, hz]
    · rcases hd : svc.DeleteRule ruleID w.remote with ⟨res, s⟩
      cases res with
      | error e =>
        have he := hrule hr
        rw [hd] at he
        simp [errOf] at he
      | ok resp =>
        rw [DeleteCBRRuleZone_rule_ok svc storageCBR ruleID zoneID w hr resp s hd]
        by_cases hz : zoneID = ""
        · subst hz
          simp [zonePart_empty, hr]
        · obtain ⟨ht, hres⟩ := zonePart_nonempty svc zoneID none
            { remote := s, environ := w.environ,
              trace := w.trace ++ [⟨Call.DeleteRule ruleID, none⟩] } hz
          have hs := zonePart_nonempty_remote svc zoneID none
            { remote := s, environ := w.environ,
              trace := w.trace ++ [⟨Call.DeleteRule ruleID, none⟩] } hz
          have he := hzone hz
          simp only [ne_eq, hr, not_false_eq_true, if_true, hd] at he
          simp only at ht hres hs
          simp [ht, hres, hs, he, hz, hr]

/-- C9 at concrete inputs: against a service that answers every delete with
status 200, not the expected 204, and no error, `DeleteCBRRuleZone "rule-1"
"zone-1"` returns no error, issues the delete-rule call and then the
delete-zone call, and the service has served exactly those two calls. -/
theorem DeleteCBRRuleZone_without_call_errors_witness :
    (("rule-1" ≠ "" →
        errOf ((sampleService [] [] [] 200).DeleteRule "rule-1" freshWorld.remote).1 = none) ∧
     ("zone-1" ≠ "" →
        errOf ((sampleService [] [] [] 200).DeleteZone "zone-1"
          (if "rule-1" ≠ "" then
            ((sampleService [] [] [] 200).DeleteRule "rule-1" freshWorld.remote).2
           else freshWorld.remote)).1 = none)) ∧
    (DeleteCBRRuleZone (sampleService [] [] [] 200) sampleClient "rule-1" "zone-1"
      freshWorld).1 = none ∧
    (DeleteCBRRuleZone (sampleService [] [] [] 200) sampleClient "rule-1" "zone-1"
      freshWorld) =
        (none, { remote := 2, environ := [],
                 trace := [⟨Call.DeleteRule "rule-1", none⟩,
                           ⟨Call.DeleteZone "zone-1", none⟩] }) ∧
    ((sampleService [] [] [] 200).DeleteRule "rule-1" 0).1 = .ok ⟨200⟩ :=
  ⟨⟨by decide, by decide⟩,
   (DeleteCBRRuleZone_without_call_errors (sampleService [] [] [] 200) sampleClient
      "rule-1" "zone-1" freshWorld (by decide) (by decide)).1,
   by decide, by decide⟩

/-- The substring test of the bulk loops decides "is a contiguous sublist". -/
theorem stringsContains_eq_decide (s substr : String) :
    stringsContains s substr = decide (substr.data <:+: s.data) := by
  rw [Bool.eq_iff_iff, decide_eq_true_iff]
  exact stringsContainsChars_iff s.data substr.data

/-- The rule loop: it records one `DeleteRule` event per rule whose
description contains `m`, in listing order, appends to `ruleIds` the IDs of
those rules whose event carries no error, and ends with the error of the last
event. -/
theorem rule_loop_trace_and_ids {σ : Type} (svc : Service σ) (m : String)
    (rules : List RuleSummary) (ruleIds : List String) (err : Option GoError)
    (w : World σ) :
    ∃ evs : List Event,
      (DeleteCBRRuleWithPattern.loop svc m rules ruleIds err w).2.trace = w.trace ++ evs ∧
      evs.map Event.call =
        (rules.filter (fun r => stringsContains r.Description m)).map
          (fun r => Call.DeleteRule r.ID) ∧
      (DeleteCBRRuleWithPattern.loop svc m rules ruleIds err w).1.1 =
        ruleIds ++
          (((rules.filter (fun r => stringsContains r.Description m)).zip evs).filter
            (fun p => p.2.err = none)).map (fun p => p.1.ID) ∧
      (DeleteCBRRuleWithPattern.loop svc m rules ruleIds err w).1.2 = lastErr err evs := by
  induction rules generalizing ruleIds err w with
  | nil => exact ⟨[], by simp [DeleteCBRRuleWithPattern.loop, lastErr]⟩
  | cons r rest ih =>
    unfold DeleteCBRRuleWithPattern.loop
    by_cases hm : stringsContains r.Description m = true
    · rw [if_pos hm]
      rcases hd : svc.DeleteRule r.ID w.remote with ⟨res, s⟩
      cases res with
      | error e =>
        simp only [invoke, hd, errOf]
        obtain ⟨evs, h1, h2, h3, h4⟩ := ih ruleIds (some e)
          { remote := s, environ := w.environ,
            trace := w.trace ++ [⟨Call.DeleteRule r.ID, some e⟩] }
        refine ⟨⟨Call.DeleteRule r.ID, some e⟩ :: evs, ?_, ?_, ?_, ?_⟩
        · rw [h1]; simp
        · simp [List.filter_cons, hm, h2]
        · rw [h3]; simp [List.filter_cons, hm]
        · rw [h4]; rfl
      | ok resp =>
        simp only [invoke, hd, errOf]
        obtain ⟨evs, h1, h2, h3, h4⟩ := ih (ruleIds ++ [r.ID]) none
          { remote := s, environ := w.environ,
            trace := w.trace ++ [⟨Call.DeleteRule r.ID, none⟩] }
        refine ⟨⟨Call.DeleteRule r.ID, none⟩ :: evs, ?_, ?_, ?_, ?_⟩
        · rw [h1]; simp
        · simp [List.filter_cons, hm, h2]
        · rw [h3]; simp [List.filter_cons, hm]
        · rw [h4]; rfl
    · rw [if_neg hm]
      obtain ⟨evs, h1, h2, h3, h4⟩ := ih ruleIds err w
      refine ⟨evs, h1, ?_, ?_, h4⟩
      · simp [List.filter_cons, hm, h2]
      · rw [h3]; simp [List.filter_cons, hm]

/-- After a successful listing, `DeleteCBRZoneWithPattern` is its loop run on
the listed zones with the effective match string, and its error is nil. -/
theorem DeleteCBRZoneWithPattern_list_ok {σ : Type} (svc : Service σ)
    (storageCBR : StorageCBR) (zoneDescription : String) (w : World σ)
    (listzone : ZoneList) (s : σ)
    (hlist : svc.ListZones storageCBR.accountID w.remote = (.ok listzone, s)) :
    DeleteCBRZoneWithPattern svc storageCBR zoneDescription w =
      (((DeleteCBRZoneWithPattern.loop svc
          (if zoneDescription = "" then storageCBR.pattern else zoneDescription)
          listzone.Zones []
          { remote := s, environ := w.environ,
            trace := w.trace ++ [⟨Call.ListZones storageCBR.accountID, none⟩] }).1, none),
       (DeleteCBRZoneWithPattern.loop svc
          (if zoneDescription = "" then storageCBR.pattern else zoneDescription)
          listzone.Zones []
          { remote := s, environ := w.environ,
            trace := w.trace ++ [⟨Call.ListZones storageCBR.accountID, none⟩] }).2) := by
  unfold DeleteCBRZoneWithPattern
  simp only [invoke, hlist, errOf]

/-- After a successful listing, `DeleteCBRRuleWithPattern` is its loop run on
the listed rules with the effective match string, starting from a nil error. -/
theorem DeleteCBRRuleWithPattern_list_ok {σ : Type} (svc : Service σ)
    (storageCBR : StorageCBR) (ruleDescription : String) (w : World σ)
    (listrules : RuleList) (s : σ)
    (hlist : svc.ListRules storageCBR.accountID w.remote = (.ok listrules, s)) :
    DeleteCBRRuleWithPattern svc storageCBR ruleDescription w =
      DeleteCBRRuleWithPattern.loop svc
        (if ruleDescription = "" then storageCBR.pattern else ruleDescription)
        listrules.Rules [] none
        { remote := s, environ := w.environ,
          trace := w.trace ++ [⟨Call.ListRules storageCBR.accountID, none⟩] } := by
  unfold DeleteCBRRuleWithPattern
  simp only [invoke, hlist, errOf]

/-- The calls among the events of a served run are one call per ID. -/
theorem serve_calls {σ : Type} (op : String → σ → Except GoError DetailedResponse × σ)
    (mk : String → Call) (ids : List String) (s : σ) :
    (serve op mk ids s).1.map Event.call = ids.map mk := by
  induction ids generalizing s with
  | nil => rfl
  | cons id rest ih => simp [serve, ih]

/-- The zone loop against the service: the events it records and the state it
leaves the service in are those of the service's `DeleteZone` served, in
listing order, on the IDs of the zones whose name contains `m`. -/
theorem zone_loop_serves {σ : Type} (svc : Service σ) (m : String)
    (zones : List ZoneSummary) (zoneIds : List String) (w : World σ) :
    (DeleteCBRZoneWithPattern.loop svc m zones zoneIds w).2.trace =
      w.trace ++ (serve svc.DeleteZone Call.DeleteZone
        ((zones.filter (fun z => stringsContains z.Name m)).map (fun z => z.ID))
        w.remote).1 ∧
    (DeleteCBRZoneWithPattern.loop svc m zones zoneIds w).2.remote =
      (serve svc.DeleteZone Call.DeleteZone
        ((zones.filter (fun z => stringsContains z.Name m)).map (fun z => z.ID))
        w.remote).2 := by
  induction zones generalizing zoneIds w with
  | nil => simp [DeleteCBRZoneWithPattern.loop, serve]
  | cons z rest ih =>
    unfold DeleteCBRZoneWithPattern.loop
    by_cases hm : stringsContains z.Name m = true
    · rw [if_pos hm]
      rcases hd : svc.DeleteZone z.ID w.remote with ⟨res, s⟩
      cases res with
      | error e =>
        simp only [invoke, hd, errOf]
        obtain ⟨h1, h2⟩ := ih zoneIds
          { remote := s, environ := w.environ,
            trace := w.trace ++ [⟨Call.DeleteZone z.ID, some e⟩] }
        simp only at h1 h2
        simp [List.filter_cons, hm, serve, hd, errOf, h1, h2]
      | ok resp =>
        simp only [invoke, hd, errOf]
        obtain ⟨h1, h2⟩ := ih (zoneIds ++ [z.ID])
          { remote := s, environ := w.environ,
            trace := w.trace ++ [⟨Call.DeleteZone z.ID, none⟩] }
        simp only at h1 h2
        simp [List.filter_cons, hm, serve, hd, errOf, h1, h2]
    · rw [if_neg hm]
      obtain ⟨h1, h2⟩ := ih zoneIds w
      simp [List.filter_cons, hm, h1, h2]

/-- The rule loop against the service: the events it records and the state it
leaves the service in are those of the service's `DeleteRule` served, in
listing order, on the IDs of the rules whose description contains `m`. -/
theorem rule_loop_serves {σ : Type} (svc : Service σ) (m : String)
    (rules : List RuleSummary) (ruleIds : List String) (err : Option GoError)
    (w : World σ) :
    (DeleteCBRRuleWithPattern.loop svc m rules ruleIds err w).2.trace =
      w.trace ++ (serve svc.DeleteRule Call.DeleteRule
        ((rules.filter (fun r => stringsContains r.Description m)).map (fun r => r.ID))
        w.remote).1 ∧
    (DeleteCBRRuleWithPattern.loop svc m rules ruleIds err w).2.remote =
      (serve svc.DeleteRule Call.DeleteRule
        ((rules.filter (fun r => stringsContains r.Description m)).map (fun r => r.ID))
        w.remote).2 := by
  induction rules generalizing ruleIds err w with
  | nil => simp [DeleteCBRRuleWithPattern.loop, serve]
  | cons r rest ih =>
    unfold DeleteCBRRuleWithPattern.loop
    by_cases hm : stringsContains r.Description m = true
    · rw [if_pos hm]
      rcases hd : svc.DeleteRule r.ID w.remote with ⟨res, s⟩
      cases res with
      | error e =>
        simp only [invoke, hd, errOf]
        obtain ⟨h1, h2⟩ := ih ruleIds (some e)
          { remote := s, environ := w.environ,
            trace := w.trace ++ [⟨Call.DeleteRule r.ID, some e⟩] }
        simp only at h1 h2
        simp [List.filter_cons, hm, serve, hd, errOf, h1, h2]
      | ok resp =>
        simp only [invoke, hd, errOf]
        obtain ⟨h1, h2⟩ := ih (ruleIds ++ [r.ID]) none
          { remote := s, environ := w.environ,
            trace := w.trace ++ [⟨Call.DeleteRule r.ID, none⟩] }
        simp only at h1 h2
        simp [List.filter_cons, hm, serve, hd, errOf, h1, h2]
    · rw [if_neg hm]
      obtain ⟨h1, h2⟩ := ih ruleIds err w
      simp [List.filter_cons, hm, h1, h2]

/-- C6: after a listing that succeeds with the zones `listzone.Zones`, leaving
the service in state `s1`, `DeleteCBRZoneWithPattern s` matches against `m`,
which is `s` when `s` is non-empty and the client's pattern when `s` is
empty: what follows the listing call in the trace, and the state the service
ends in, are those of the service's `DeleteZone` applied from `s1`, in
listing order, to exactly the listed zones whose name contains `m` as a
substring; so there is one delete-zone call per such zone, carrying the
error the service returned for it, and no call for any other zone. -/
theorem DeleteCBRZoneWithPattern_deletes_matching {σ : Type} (svc : Service σ)
    (storageCBR : StorageCBR) (s : String) (w : World σ) (listzone : ZoneList) (s1 : σ)
    (hlist : svc.ListZones storageCBR.accountID w.remote = (.ok listzone, s1)) :
    (DeleteCBRZoneWithPattern svc storageCBR s w).2.trace =
      w.trace ++ ⟨Call.ListZones storageCBR.accountID, none⟩ ::
        (serve svc.DeleteZone Call.DeleteZone
          ((listzone.Zones.filter (fun z =>
            decide ((if s = "" then storageCBR.pattern else s).data <:+: z.Name.data))).map
            (fun z => z.ID)) s1).1 ∧
    (DeleteCBRZoneWithPattern svc storageCBR s w).2.remote =
      (serve svc.DeleteZone Call.DeleteZone
        ((listzone.Zones.filter (fun z =>
          decide ((if s = "" then storageCBR.pattern else s).data <:+: z.Name.data))).map
          (fun z => z.ID)) s1).2 ∧
    ∃ evs : List Event,
      (DeleteCBRZoneWithPattern svc storageCBR s w).2.trace =
        w.trace ++ ⟨Call.ListZones storageCBR.accountID, none⟩ :: evs ∧
      evs.map Event.call =
        (listzone.Zones.filter
          (fun z => decide ((if s = "" then storageCBR.pattern else s).data <:+: z.Name.data))).map
          (fun z => Call.DeleteZone z.ID) := by
  rw [DeleteCBRZoneWithPattern_list_ok svc storageCBR s w listzone s1 hlist]
  obtain ⟨h1, h2⟩ := zone_loop_serves svc
    (if s = "" then storageCBR.pattern else s) listzone.Zones []
    { remote := s1, environ := w.environ,
      trace := w.trace ++ [⟨Call.ListZones storageCBR.accountID, none⟩] }
  simp only [stringsContains_eq_decide, List.append_assoc, List.singleton_append] at h1 h2
  refine ⟨h1, h2, _, h1, ?_⟩
  rw [serve_calls, List.map_map]
  rfl

/-- C6 at concrete inputs: with pattern "mypattern" and an empty argument, the
listed zone named "foo-mypattern" gets a delete call and the one named
"foo-other" does not; the service has served the listing and that one
delete, and the ID of the deleted zone is returned. -/
theorem DeleteCBRZoneWithPattern_deletes_matching_witness :
    (sampleService [⟨"z1", "foo-mypattern"⟩, ⟨"z2", "foo-other"⟩] [] [] 204).ListZones
        sampleClient.accountID freshWorld.remote =
      (.ok ⟨2, [⟨"z1", "foo-mypattern"⟩, ⟨"z2", "foo-other"⟩]⟩, 1) ∧
    (DeleteCBRZoneWithPattern
        (sampleService [⟨"z1", "foo-mypattern"⟩, ⟨"z2", "foo-other"⟩] [] [] 204)
        sampleClient "" freshWorld).2.remote =
      (serve (sampleService [⟨"z1", "foo-mypattern"⟩, ⟨"z2", "foo-other"⟩] [] [] 204).DeleteZone
        Call.DeleteZone
        ((([⟨"z1", "foo-mypattern"⟩, ⟨"z2", "foo-other"⟩] : List ZoneSummary).filter
          (fun z => decide ((if ("" : String) = "" then sampleClient.pattern else "").data
            <:+: z.Name.data))).map (fun z => z.ID)) 1).2 ∧
    DeleteCBRZoneWithPattern
        (sampleService [⟨"z1", "foo-mypattern"⟩, ⟨"z2", "foo-other"⟩] [] [] 204)
        sampleClient "" freshWorld =
      ((["z1"], none),
       { remote := 2, environ := [],
         trace := [⟨Call.ListZones "acct", none⟩, ⟨Call.DeleteZone "z1", none⟩] }) ∧
    DeleteCBRZoneWithPattern
        (sampleService [⟨"z1", "foo-mypattern"⟩, ⟨"z2", "foo-other"⟩] [] ["z1"] 204)
        sampleClient "" freshWorld =
      (([], none),
       { remote := 2, environ := [],
         trace := [⟨Call.ListZones "acct", none⟩,
                   ⟨Call.DeleteZone "z1", some "cannot delete z1"⟩] }) :=
  ⟨by decide,
   (DeleteCBRZoneWithPattern_deletes_matching
     (sampleService [⟨"z1", "foo-mypattern"⟩, ⟨"z2", "foo-other"⟩] [] [] 204)
     sampleClient "" freshWorld ⟨2, [⟨"z1", "foo-mypattern"⟩, ⟨"z2", "foo-other"⟩]⟩ 1
     (by decide)).2.1,
   by decide, by decide⟩

/-- C10: for a client whose pattern is the empty string,
`DeleteCBRZoneWithPattern ""` after a successful listing has the service's
`DeleteZone` applied to every listed zone, in listing order, whatever the
names are: what follows the listing call in the trace, and the state the
service ends in, are those of `DeleteZone` served on the IDs of all listed
zones from the state the listing left.  Likewise `DeleteCBRRuleWithPattern
""` has `DeleteRule` applied to every listed rule, whatever the descriptions
are. -/
theorem empty_pattern_deletes_everything {σ : Type} (svc : Service σ)
    (storageCBR : StorageCBR) (w : World σ) (hp : storageCBR.pattern = "") :
    (∀ (listzone : ZoneList) (s1 : σ),
      svc.ListZones storageCBR.accountID w.remote = (.ok listzone, s1) →
      (DeleteCBRZoneWithPattern svc storageCBR "" w).2.trace =
        w.trace ++ ⟨Call.ListZones storageCBR.accountID, none⟩ ::
          (serve svc.DeleteZone Call.DeleteZone (listzone.Zones.map (fun z => z.ID)) s1).1 ∧
      (DeleteCBRZoneWithPattern svc storageCBR "" w).2.remote =
        (serve svc.DeleteZone Call.DeleteZone (listzone.Zones.map (fun z => z.ID)) s1).2 ∧
      ∃ evs : List Event,
        (DeleteCBRZoneWithPattern svc storageCBR "" w).2.trace =
          w.trace ++ ⟨Call.ListZones storageCBR.accountID, none⟩ :: evs ∧
        evs.map Event.call = listzone.Zones.map (fun z => Call.DeleteZone z.ID)) ∧
    (∀ (listrules : RuleList) (s1 : σ),
      svc.ListRules storageCBR.accountID w.remote = (.ok listrules, s1) →
      (DeleteCBRRuleWithPattern svc storageCBR "" w).2.trace =
        w.trace ++ ⟨Call.ListRules storageCBR.accountID, none⟩ ::
          (serve svc.DeleteRule Call.DeleteRule (listrules.Rules.map (fun r => r.ID)) s1).1 ∧
      (DeleteCBRRuleWithPattern svc storageCBR "" w).2.remote =
        (serve svc.DeleteRule Call.DeleteRule (listrules.Rules.map (fun r => r.ID)) s1).2 ∧
      ∃ evs : List Event,
        (DeleteCBRRuleWithPattern svc storageCBR "" w).2.trace =
          w.trace ++ ⟨Call.ListRules storageCBR.accountID, none⟩ :: evs ∧
        evs.map Event.call = listrules.Rules.map (fun r => Call.DeleteRule r.ID)) := by
  constructor
  · intro listzone s1 hlist
    rw [DeleteCBRZoneWithPattern_list_ok svc storageCBR "" w listzone s1 hlist]
    obtain ⟨h1, h2⟩ := zone_loop_serves svc
      (if ("" : String) = "" then storageCBR.pattern else "") listzone.Zones []
      { remote := s1, environ := w.environ,
        trace := w.trace ++ [⟨Call.ListZones storageCBR.accountID, none⟩] }
    simp only [if_true, hp, stringsContains_empty, List.filter_true, List.append_assoc,
      List.singleton_append] at h1 h2
    simp only [if_true, hp]
    refine ⟨h1, h2, _, h1, ?_⟩
    rw [serve_calls, List.map_map]
    rfl
  · intro listrules s1 hlist
    rw [DeleteCBRRuleWithPattern_list_ok svc storageCBR "" w listrules s1 hlist]
    obtain ⟨h1, h2⟩ := rule_loop_serves svc
      (if ("" : String) = "" then storageCBR.pattern else "") listrules.Rules [] none
      { remote := s1, environ := w.environ,
        trace := w.trace ++ [⟨Call.ListRules storageCBR.accountID, none⟩] }
    simp only [if_true, hp, stringsContains_empty, List.filter_true, List.append_assoc,
      List.singleton_append] at h1 h2
    simp only [if_true, hp]
    refine ⟨h1, h2, _, h1, ?_⟩
    rw [serve_calls, List.map_map]
    rfl

/-- C10 at concrete inputs: a client with an empty pattern, asked to delete
zones matching the empty string, has both listed zones deleted, unrelated
names included, and asked to delete rules matching the empty string, has both
listed rules deleted; each time the service has served the listing and two
deletes, and a delete the service refuses shows as such in the trace. -/
theorem empty_pattern_deletes_everything_witness :
    (⟨"acct", "rg", "", ""⟩ : StorageCBR).pattern = "" ∧
    ((DeleteCBRZoneWithPattern
        (sampleService [⟨"z1", "production"⟩, ⟨"z2", "unrelated"⟩] [] [] 204)
        ⟨"acct", "rg", "", ""⟩ "" freshWorld).2.remote =
      (serve (sampleService [⟨"z1", "production"⟩, ⟨"z2", "unrelated"⟩] [] [] 204).DeleteZone
        Call.DeleteZone
        (([⟨"z1", "production"⟩, ⟨"z2", "unrelated"⟩] : List ZoneSummary).map (fun z => z.ID))
        1).2) ∧
    ((DeleteCBRRuleWithPattern
        (sampleService [] [⟨"r1", "is-rule-a"⟩, ⟨"r2", "kms-rule-b"⟩] ["r1"] 204)
        ⟨"acct", "rg", "", ""⟩ "" freshWorld).2.remote =
      (serve (sampleService [] [⟨"r1", "is-rule-a"⟩, ⟨"r2", "kms-rule-b"⟩] ["r1"] 204).DeleteRule
        Call.DeleteRule
        (([⟨"r1", "is-rule-a"⟩, ⟨"r2", "kms-rule-b"⟩] : List RuleSummary).map (fun r => r.ID))
        1).2) ∧
    DeleteCBRZoneWithPattern
        (sampleService [⟨"z1", "production"⟩, ⟨"z2", "unrelated"⟩] [] [] 204)
        ⟨"acct", "rg", "", ""⟩ "" freshWorld =
      ((["z1", "z2"], none),
       { remote := 3, environ := [],
         trace := [⟨Call.ListZones "acct", none⟩, ⟨Call.DeleteZone "z1", none⟩,
                   ⟨Call.DeleteZone "z2", none⟩] }) ∧
    DeleteCBRRuleWithPattern
        (sampleService [] [⟨"r1", "is-rule-a"⟩, ⟨"r2", "kms-rule-b"⟩] ["r1"] 204)
        ⟨"acct", "rg", "", ""⟩ "" freshWorld =
      ((["r2"], none),
       { remote := 3, environ := [],
         trace := [⟨Call.ListRules "acct", none⟩,
                   ⟨Call.DeleteRule "r1", some "cannot delete r1"⟩,
                   ⟨Call.DeleteRule "r2", none⟩] }) :=
  ⟨by decide,
   ((empty_pattern_deletes_everything
      (sampleService [⟨"z1", "production"⟩, ⟨"z2", "unrelated"⟩] [] [] 204)
      ⟨"acct", "rg", "", ""⟩ freshWorld (by decide)).1
      ⟨2, [⟨"z1", "production"⟩, ⟨"z2", "unrelated"⟩]⟩ 1 (by decide)).2.1,
   ((empty_pattern_deletes_everything
      (sampleService [] [⟨"r1", "is-rule-a"⟩, ⟨"r2", "kms-rule-b"⟩] ["r1"] 204)
      ⟨"acct", "rg", "", ""⟩ freshWorld (by decide)).2
      ⟨2, [⟨"r1", "is-rule-a"⟩, ⟨"r2", "kms-rule-b"⟩]⟩ 1 (by decide)).2.1,
   by decide, by decide⟩

/-- After a successful listing `DeleteCBRZoneWithPattern` returns a nil error,
whatever the delete calls of its loop returned. -/
theorem DeleteCBRZoneWithPattern_err_nil {σ : Type} (svc : Service σ)
    (storageCBR : StorageCBR) (s : String) (w : World σ) (listzone : ZoneList) (s1 : σ)
    (hlist : svc.ListZones storageCBR.accountID w.remote = (.ok listzone, s1)) :
    (DeleteCBRZoneWithPattern svc storageCBR s w).1.2 = none := by
  rw [DeleteCBRZoneWithPattern_list_ok svc storageCBR s w listzone s1 hlist]

/-- After a successful listing `DeleteCBRRuleWithPattern` returns the error of
the last delete-rule call of its loop (nil when the loop issued none). -/
theorem DeleteCBRRuleWithPattern_err_last {σ : Type} (svc : Service σ)
    (storageCBR : StorageCBR) (s : String) (w : World σ) (listrules : RuleList) (s1 : σ)
    (hlist : svc.ListRules storageCBR.accountID w.remote = (.ok listrules, s1)) :
    ∃ evs : List Event,
      (DeleteCBRRuleWithPattern svc storageCBR s w).2.trace =
        w.trace ++ ⟨Call.ListRules storageCBR.accountID, none⟩ :: evs ∧
      (DeleteCBRRuleWithPattern svc storageCBR s w).1.2 = lastErr none evs := by
  rw [DeleteCBRRuleWithPattern_list_ok svc storageCBR s w listrules s1 hlist]
  obtain ⟨evs, h1, _, _, h4⟩ := rule_loop_trace_and_ids svc
    (if s = "" then storageCBR.pattern else s) listrules.Rules [] none
    { remote := s1, environ := w.environ,
      trace := w.trace ++ [⟨Call.ListRules storageCBR.accountID, none⟩] }
  exact ⟨evs, by rw [h1]; simp, h4⟩

/-- C5 at a failing input: the listing succeeds with the single zone "z1"
named "foo-mypattern", which matches, and its delete-zone call, the last one
of the loop, fails; `DeleteCBRZoneWithPattern` returns no IDs and a nil
error, where the claim has the delete error returned.  On the same input
for rules, `DeleteCBRRuleWithPattern` does return the delete error. -/
theorem DeleteCBRZoneWithPattern_drops_last_error :
    (DeleteCBRZoneWithPattern (sampleService [⟨"z1", "foo-mypattern"⟩] [] ["z1"] 204)
        sampleClient "" freshWorld).2.trace =
      [⟨Call.ListZones "acct", none⟩, ⟨Call.DeleteZone "z1", some "cannot delete z1"⟩] ∧
    (DeleteCBRZoneWithPattern (sampleService [⟨"z1", "foo-mypattern"⟩] [] ["z1"] 204)
        sampleClient "" freshWorld).1 = ([], none) ∧
    (DeleteCBRRuleWithPattern (sampleService [] [⟨"z1", "foo-mypattern"⟩] ["z1"] 204)
        sampleClient "" freshWorld).2.trace =
      [⟨Call.ListRules "acct", none⟩, ⟨Call.DeleteRule "z1", some "cannot delete z1"⟩] ∧
    (DeleteCBRRuleWithPattern (sampleService [] [⟨"z1", "foo-mypattern"⟩] ["z1"] 204)
        sampleClient "" freshWorld).1 = ([], some "cannot delete z1") := by
  decide

end cbr
